import Mathlib

/-!
Verification of the OpenClaw memory-vectorize worker and plugin.

Text is modelled as `List Char` (JavaScript strings, one element per code
point; `jsCharCode` reproduces `charCodeAt(0)` on the first UTF-16 code
unit).  Each definition below is a shallow embedding of the corresponding
function in `worker/src/index.ts` or `plugin/index.ts`; external
collaborators (embedding model, Vectorize store clock) are passed in as
explicit parameters.
-/

set_option maxRecDepth 200000

/-- JavaScript string: a list of Unicode code points. -/
abbrev JStr := List Char

/-- Literal helper: a Lean string as a `JStr`. -/
def str (s : String) : JStr := s.toList

/-- The apostrophe character (code point 39). -/
def apos : Char := Char.ofNat 39

/-- Does `s` start with `pat`? (JavaScript `String.prototype.startsWith`.) -/
def jsStartsWith : JStr → JStr → Bool
  | _, [] => true
  | [], _ :: _ => false
  | c :: s, p :: ps => c = p && jsStartsWith s ps

/-- Does `s` contain `pat` as a contiguous substring?
(JavaScript `String.prototype.includes`.) -/
def jsIncludes (pat : JStr) : JStr → Bool
  | [] => jsStartsWith [] pat
  | c :: rest => jsStartsWith (c :: rest) pat || jsIncludes pat rest

/-- Does `s` contain any of the given substrings? -/
def containsAny (s : JStr) (pats : List JStr) : Bool :=
  pats.any (fun p => jsIncludes p s)

/-- JavaScript `String.prototype.toLowerCase` (ASCII fragment). -/
def jsToLower (s : JStr) : JStr := s.map Char.toLower

/-- JavaScript `String.prototype.trim`: strip leading and trailing
whitespace. -/
def jsTrim (s : JStr) : JStr :=
  ((s.dropWhile Char.isWhitespace).reverse.dropWhile Char.isWhitespace).reverse

/-- Accumulator pass for `splitParas`: `acc` holds the current token
(reversed), `nl` counts the newline run in progress.  A run of two or more
newlines is one separator (the regex `\n\n+` of `chunkText`); a single
newline is literal text. -/
def splitParasAux : JStr → JStr → Nat → List JStr
  | [], acc, nl =>
      if 2 ≤ nl then [acc.reverse, []]
      else [(List.replicate nl '\n' ++ acc).reverse]
  | c :: rest, acc, nl =>
      if c = '\n' then splitParasAux rest acc (nl + 1)
      else if 2 ≤ nl then acc.reverse :: splitParasAux rest [c] 0
      else splitParasAux rest (c :: (List.replicate nl '\n' ++ acc)) 0

/-- JavaScript `text.split(/\n\n+/)`. -/
def splitParas (s : JStr) : List JStr := splitParasAux s [] 0

/-- One step of the paragraph-packing loop of `chunkText`
(`worker/src/index.ts`, lines 68-76): close the current chunk when adding
the next paragraph would overflow `maxChunkSize` and the current chunk is
non-empty (JS string truthiness), else append the paragraph with a
two-newline joiner. -/
def chunkStep (maxChunkSize : Nat) (st : List JStr × JStr) (para : JStr) :
    List JStr × JStr :=
  if maxChunkSize < st.2.length + para.length ∧ st.2 ≠ [] then
    (st.1 ++ [jsTrim st.2], para)
  else
    (st.1, if st.2 ≠ [] then st.2 ++ '\n' :: '\n' :: para else para)

/-- `chunkText` (`worker/src/index.ts`, lines 64-82): split on blank lines,
greedily pack paragraphs into chunks of at most `maxChunkSize` characters
(default 500), push the trimmed final chunk when non-empty. -/
def chunkText (text : JStr) (maxChunkSize : Nat := 500) : List JStr :=
  let r := (splitParas text).foldl (chunkStep maxChunkSize) ([], [])
  if jsTrim r.2 ≠ [] then r.1 ++ [jsTrim r.2] else r.1

/-- Wrap an integer to the signed 32-bit range (JavaScript `| 0`). -/
def toInt32 (n : Int) : Int :=
  let m := n % 4294967296
  if m < 2147483648 then m else m - 4294967296

/-- JavaScript `charCodeAt(0)` of the string holding one code point: the
code point itself on the BMP, else the high surrogate. -/
def jsCharCode (c : Char) : Nat :=
  if c.toNat < 65536 then c.toNat else 55296 + (c.toNat - 65536) / 1024

/-- The content hash of `generateId` (`worker/src/index.ts`, lines 57-59):
`Array.from(text).reduce((h, c) => ((h << 5) - h + c.charCodeAt(0)) | 0, 0)`. -/
def jsHash (text : JStr) : Int :=
  text.foldl (fun h c => toInt32 (toInt32 (h * 32) - h + (jsCharCode c : Int))) 0

/-- Hexadecimal digit (lowercase, as JavaScript `toString(16)`). -/
def hexDigit (n : Nat) : Char :=
  if n < 10 then Char.ofNat (48 + n) else Char.ofNat (87 + n)

/-- Fueled hex rendering of a positive natural. -/
def natHexAux : Nat → Nat → JStr → JStr
  | 0, _, acc => acc
  | fuel + 1, n, acc =>
      if n = 0 then acc else natHexAux fuel (n / 16) (hexDigit (n % 16) :: acc)

/-- Hex rendering of a natural (JavaScript `toString(16)` on a Nat). -/
def natHex (n : Nat) : JStr :=
  if n = 0 then ['0'] else natHexAux (n + 1) n []

/-- JavaScript `Number.prototype.toString(16)` on a 32-bit integer:
a minus sign followed by the hex digits of the absolute value. -/
def jsHexString (n : Int) : JStr :=
  if n < 0 then '-' :: natHex n.natAbs else natHex n.toNat

/-- `generateId` (`worker/src/index.ts`, lines 56-61):
the template literal `agent:source:hash.toString(16)`. -/
def generateId (agent source text : JStr) : JStr :=
  agent ++ ':' :: source ++ ':' :: jsHexString (jsHash text)

/-- A Memory Record as persisted in the Vector Store: the `MemoryMetadata`
fields of `worker/src/index.ts` (lines 23-30) together with the vector id
and values.  The category (`type`) is a plain string because the TypeScript
union type is erased at runtime; `as MemoryMetadata['type']` casts do not
check anything. -/
structure MemoryRecord where
  id : JStr
  values : List Rat
  agent : JStr
  type : JStr
  source_file : JStr
  timestamp : JStr
  chunk_index : Int
  raw_text : JStr
deriving DecidableEq

/-- The Vector Store: a list of records, at most one per id once writes go
through `upsertOne`. -/
abbrev Store := List MemoryRecord

/-- Vectorize `upsert` of one vector: overwrite the record with the same id
when one exists, else append. -/
def upsertOne (store : Store) (r : MemoryRecord) : Store :=
  if store.any (fun x => decide (x.id = r.id)) then
    store.map (fun x => if x.id = r.id then r else x)
  else store ++ [r]

/-- Vectorize `upsert` of a batch of vectors. -/
def upsertMany (store : Store) (recs : List MemoryRecord) : Store :=
  recs.foldl upsertOne store

/-- An HTTP handler outcome: a JSON value, or an error with a status code. -/
inductive HttpResult (α : Type) where
  | ok (value : α)
  | error (status : Nat) (message : JStr)
deriving DecidableEq

/-- JavaScript `v || dflt` on an optional string: `undefined` and the empty
string are falsy. -/
def orElseStr (v : Option JStr) (dflt : JStr) : JStr :=
  match v with
  | none => dflt
  | some s => if s = [] then dflt else s

/-- JavaScript `v || dflt` on an optional integer: `undefined` and `0` are
falsy. -/
def orElseInt (v : Option Int) (dflt : Int) : Int :=
  match v with
  | none => dflt
  | some x => if x = 0 then dflt else x

/-- JavaScript `v || dflt` on an optional number modelled as a rational:
`undefined` and `0` are falsy.  (`NaN`, the one other falsy number, is not
representable in the model.) -/
def orElseRat (v : Option Rat) (dflt : Rat) : Rat :=
  match v with
  | none => dflt
  | some x => if x = 0 then dflt else x

/-- `IndexRequest` (`worker/src/index.ts`, lines 40-46). -/
structure IndexRequest where
  agent : JStr
  text : JStr
  type : Option JStr := none
  source_file : Option JStr := none
  chunk_index : Option Int := none
deriving DecidableEq

/-- `CaptureRequest` (`worker/src/index.ts`, lines 48-53).  `turn_type` is
carried but never read by the handler. -/
structure CaptureRequest where
  agent : JStr
  turn_type : JStr := str "assistant"
  content : JStr
  classification : Option JStr := none
deriving DecidableEq

/-- `QueryRequest` (`worker/src/index.ts`, lines 32-38). -/
structure QueryRequest where
  query : JStr
  agent : Option JStr := none
  type : Option JStr := none
  topK : Option Int := none
  minScore : Option Rat := none
deriving DecidableEq

/-- A match returned by `VECTORIZE.query`. -/
structure VectorMatch where
  id : JStr
  score : Rat
  metadata : Option MemoryRecord := none
deriving DecidableEq

/-- The `/query` response body (`worker/src/index.ts`, lines 137-145). -/
structure QueryResponse where
  query : JStr
  count : Nat
  «matches» : List VectorMatch
deriving DecidableEq

/-- The `/index` response body (`worker/src/index.ts`, lines 190-194),
without the opaque store acknowledgement. -/
structure IndexResponse where
  indexed : Nat
  ids : List JStr
deriving DecidableEq

/-- The `/capture` response body (`worker/src/index.ts`, lines 225 and
251-255). -/
structure CaptureResponse where
  captured : Bool
  type : Option JStr := none
  id : Option JStr := none
  reason : Option JStr := none
deriving DecidableEq

/-- The `topK` the `/query` handler passes to `VECTORIZE.query`
(`worker/src/index.ts`, line 128): `body.topK || 5`, no clamping. -/
def queryTopK (req : QueryRequest) : Int := orElseInt req.topK 5

/-- The minimum score the `/query` handler filters with
(`worker/src/index.ts`, line 134): `body.minScore || 0.7`, no clamping.
The double `0.7` is modelled as the rational `7/10`. -/
def queryMinScore (req : QueryRequest) : Rat := orElseRat req.minScore (7 / 10)

/-- The `/query` post-filter (`worker/src/index.ts`, line 135):
`results.matches.filter(m => m.score >= minScore)`. -/
def queryFiltered (storeMatches : List VectorMatch) (req : QueryRequest) :
    List VectorMatch :=
  storeMatches.filter (fun m => decide (queryMinScore req ≤ m.score))

/-- The `/query` handler (`worker/src/index.ts`, lines 108-146), given the
matches the Vector Store returns for the embedded query: reject an absent
or empty query with 400, else post-filter by the minimum score and answer
with the filtered matches and their count. -/
def queryHandler (storeMatches : List VectorMatch) (req : QueryRequest) :
    HttpResult QueryResponse :=
  if req.query = [] then .error 400 (str "query is required")
  else
    .ok { query := req.query
          count := (queryFiltered storeMatches req).length
          «matches» := queryFiltered storeMatches req }

/-- The records the `/index` handler assembles (`worker/src/index.ts`,
lines 158-185): one per chunk of the request text, with the embedding
model and the clock passed in as `embed` and `now`. -/
def indexVectors (embed : JStr → List Rat) (now : JStr) (req : IndexRequest) :
    List MemoryRecord :=
  (chunkText req.text 500).enum.map fun p =>
    { id := generateId req.agent (orElseStr req.source_file (str "manual")) p.2
      values := embed p.2
      agent := req.agent
      type := orElseStr req.type (str "context")
      source_file := orElseStr req.source_file (str "manual")
      timestamp := now
      chunk_index := req.chunk_index.getD (p.1 : Int)
      raw_text := p.2 }

/-- The ids `/index` produces: a pure function of
(agent, source, text). -/
def indexIds (req : IndexRequest) : List JStr :=
  (chunkText req.text 500).map
    (generateId req.agent (orElseStr req.source_file (str "manual")))

/-- The upsert calls the `/index` handler makes (`worker/src/index.ts`,
line 188): a single call carrying every assembled vector. -/
def indexUpsertCalls (embed : JStr → List Rat) (now : JStr) (req : IndexRequest) :
    List (List MemoryRecord) :=
  if req.agent = [] ∨ req.text = [] then [] else [indexVectors embed now req]

/-- The `/index` handler (`worker/src/index.ts`, lines 151-195). -/
def indexHandler (embed : JStr → List Rat) (now : JStr) (store : Store)
    (req : IndexRequest) : HttpResult (IndexResponse × Store) :=
  if req.agent = [] ∨ req.text = [] then
    .error 400 (str "agent and text are required")
  else
    .ok ({ indexed := (indexVectors embed now req).length
           ids := (indexVectors embed now req).map (fun r => r.id) },
         upsertMany store (indexVectors embed now req))

/-- The decision-language substrings of the `/capture` heuristics
(`worker/src/index.ts`, line 213). -/
def workerDecisionStrs : List JStr := [str "decided", str "decision"]

/-- The literal `that's wrong` (written out to keep the apostrophe a
character). -/
def thatsWrong : JStr := str "that" ++ apos :: str "s wrong"

/-- The correction-language substrings of the `/capture` heuristics
(`worker/src/index.ts`, line 215). -/
def workerCorrectionStrs : List JStr := [str "actually", str "no,", thatsWrong]

/-- The learning-language substrings of the `/capture` heuristics
(`worker/src/index.ts`, line 217). -/
def workerLearningStrs : List JStr := [str "learned", str "realized"]

/-- The preference-language substrings of the `/capture` heuristics
(`worker/src/index.ts`, line 219). -/
def workerPreferenceStrs : List JStr := [str "prefer", str "like", str "want"]

/-- The `/capture` fallback classification heuristics
(`worker/src/index.ts`, lines 208-221), used when no classification is
supplied: decision, then correction, then learning, then preference, else
context, matched on the lowercased content. -/
def captureHeuristicType (content : JStr) : JStr :=
  let contentLower := jsToLower content
  if containsAny contentLower workerDecisionStrs then str "decision"
  else if containsAny contentLower workerCorrectionStrs then str "correction"
  else if containsAny contentLower workerLearningStrs then str "learning"
  else if containsAny contentLower workerPreferenceStrs then str "preference"
  else str "context"

/-- The memory type the `/capture` handler stores
(`worker/src/index.ts`, lines 208-221): a truthy (non-empty) caller
classification is taken verbatim, else the heuristics run. -/
def captureMemoryType (req : CaptureRequest) : JStr :=
  match req.classification with
  | some c => if c ≠ [] then c else captureHeuristicType req.content
  | none => captureHeuristicType req.content

/-- The record the `/capture` handler assembles
(`worker/src/index.ts`, lines 234-247): `raw_text` is
`content.slice(0, 1000)`. -/
def captureRecord (embed : JStr → List Rat) (now : JStr) (req : CaptureRequest) :
    MemoryRecord :=
  { id := generateId req.agent (str "capture") req.content
    values := embed req.content
    agent := req.agent
    type := captureMemoryType req
    source_file := str "auto-capture"
    timestamp := now
    chunk_index := 0
    raw_text := req.content.take 1000 }

/-- The upsert calls the `/capture` handler makes
(`worker/src/index.ts`, line 249): one call with one vector, and only
when the request is valid and the memory type is capture-worthy. -/
def captureUpsertCalls (embed : JStr → List Rat) (now : JStr)
    (req : CaptureRequest) : List (List MemoryRecord) :=
  if req.agent = [] ∨ req.content = [] then []
  else if captureMemoryType req = str "context" then []
  else [[captureRecord embed now req]]

/-- The `/capture` handler (`worker/src/index.ts`, lines 200-256): no
near-duplicate query is made anywhere on this path; a capture-worthy
record is upserted unconditionally. -/
def captureHandler (embed : JStr → List Rat) (now : JStr) (store : Store)
    (req : CaptureRequest) : HttpResult (CaptureResponse × Store) :=
  if req.agent = [] ∨ req.content = [] then
    .error 400 (str "agent and content are required")
  else if captureMemoryType req = str "context" then
    .ok ({ captured := false, reason := some (str "Not a capture-worthy turn") },
         store)
  else
    .ok ({ captured := true
           type := some (captureMemoryType req)
           id := some (captureRecord embed now req).id },
         upsertMany store [captureRecord embed now req])

/-- The records the `/index-file` handler assembles
(`worker/src/index.ts`, lines 285-311), given the file text fetched from
the blob bucket: every record carries category `context` and the full
chunk as `raw_text`. -/
def indexFileVectors (embed : JStr → List Rat) (now : JStr)
    (agent file text : JStr) : List MemoryRecord :=
  (chunkText text 500).enum.map fun p =>
    { id := generateId agent file p.2
      values := embed p.2
      agent := agent
      type := str "context"
      source_file := file
      timestamp := now
      chunk_index := (p.1 : Int)
      raw_text := p.2 }

/-- Fueled batching: `slice(i, i + 100)` groups of the `/index-file`
upsert loop. -/
def batchesOfAux : Nat → List MemoryRecord → List (List MemoryRecord)
  | 0, _ => []
  | _, [] => []
  | fuel + 1, x :: rest => (x :: rest).take 100 :: batchesOfAux fuel ((x :: rest).drop 100)

/-- The batches of the `/index-file` upsert loop
(`worker/src/index.ts`, lines 313-319): groups of at most 100 vectors. -/
def batchesOf (l : List MemoryRecord) : List (List MemoryRecord) :=
  batchesOfAux l.length l

/-- The upsert calls the `/index-file` handler makes: the 100-record
batches of its vectors. -/
def indexFileUpsertCalls (embed : JStr → List Rat) (now : JStr)
    (agent file text : JStr) : List (List MemoryRecord) :=
  batchesOf (indexFileVectors embed now agent file text)

/-- The correction-language patterns of the plugin classifier
(`plugin/index.ts`, line 152). -/
def pluginCorrectionStrs : List JStr :=
  [str "actually", str "no,", thatsWrong, str "correction"]

/-- The preference-language patterns of the plugin classifier
(`plugin/index.ts`, line 153). -/
def pluginPreferenceStrs : List JStr :=
  [str "prefer", str "like", str "love", str "hate", str "want"]

/-- The decision-language patterns of the plugin classifier
(`plugin/index.ts`, line 154). -/
def pluginDecisionStrs : List JStr := [str "decided", str "decision", str "will use"]

/-- The learning-language patterns of the plugin classifier
(`plugin/index.ts`, line 155). -/
def pluginLearningStrs : List JStr := [str "learned", str "realized", str "discovered"]

/-- `detectCategory` (`plugin/index.ts`, lines 150-157): correction, then
preference, then decision, then learning, else context, matched on the
lowercased text (each regex is an alternation of literal substrings). -/
def detectCategory (text : JStr) : JStr :=
  let lower := jsToLower text
  if containsAny lower pluginCorrectionStrs then str "correction"
  else if containsAny lower pluginPreferenceStrs then str "preference"
  else if containsAny lower pluginDecisionStrs then str "decision"
  else if containsAny lower pluginLearningStrs then str "learning"
  else str "context"

/-- Modelled from the spec: category assignment follows the strict
precedence correction > preference > decision > learning > else context,
first match wins, over the given language substring sets.  Used to compare
the claimed precedence against each classifier in the code. -/
def specOrderCategory (corrLang prefLang decLang learnLang : List JStr)
    (text : JStr) : JStr :=
  let lower := jsToLower text
  if containsAny lower corrLang then str "correction"
  else if containsAny lower prefLang then str "preference"
  else if containsAny lower decLang then str "decision"
  else if containsAny lower learnLang then str "learning"
  else str "context"

/-- The closed category enumeration of `MemoryMetadata['type']`
(`worker/src/index.ts`, line 25). -/
def closedCategorySet : List JStr :=
  [str "decision", str "correction", str "learning", str "preference",
   str "context", str "user_profile"]

example : splitParas (str "a\n\nb") = [str "a", str "b"] := by decide
example : splitParas (str "") = [[]] := by decide
example : splitParas (str "a\nb") = [str "a\nb"] := by decide
example : splitParas (str "a\n\n\n\nb\n\n") = [str "a", str "b", []] := by decide
example : chunkText (str "hello\n\nworld") 500 = [str "hello\n\nworld"] := by decide
example : chunkText (str "aaaa\n\nbbbb") 5 = [str "aaaa", str "bbbb"] := by decide
example : chunkText (str "  ") 500 = [] := by decide
example : generateId (str "a") (str "s") (str "hi") = str "a:s:d01" := by decide
example : jsHash (str "") = 0 := by decide

/-! ## Helper lemmas -/

lemma jsTrim_length_le (s : JStr) : (jsTrim s).length ≤ s.length := by
  unfold jsTrim
  calc (((s.dropWhile Char.isWhitespace).reverse.dropWhile Char.isWhitespace).reverse).length
      = ((s.dropWhile Char.isWhitespace).reverse.dropWhile Char.isWhitespace).length := by
        simp
    _ ≤ (s.dropWhile Char.isWhitespace).reverse.length :=
        (List.dropWhile_sublist _).length_le
    _ = (s.dropWhile Char.isWhitespace).length := by simp
    _ ≤ s.length := (List.dropWhile_sublist _).length_le

lemma enum_map_comp_snd {α β : Type} (l : List α) (g : α → β) :
    l.enum.map (fun p => g p.2) = l.map g := by
  have h : (fun p : Nat × α => g p.2) = g ∘ Prod.snd := rfl
  rw [h, ← List.map_map, List.enum_map_snd]

lemma snd_mem_of_mem_enum {α : Type} {l : List α} {p : Nat × α}
    (h : p ∈ l.enum) : p.2 ∈ l := by
  rw [List.mem_enum_iff_getElem?] at h
  exact List.getElem?_mem h

lemma upsertOne_map_id (s : Store) (r : MemoryRecord) :
    (upsertOne s r).map (fun x => x.id)
      = if s.any (fun x => decide (x.id = r.id)) then s.map (fun x => x.id)
        else s.map (fun x => x.id) ++ [r.id] := by
  unfold upsertOne
  by_cases h : s.any (fun x => decide (x.id = r.id))
  · simp only [h, if_true, List.map_map]
    refine List.map_congr_left ?_
    intro x _
    by_cases hx : x.id = r.id
    · simp [hx]
    · simp [hx]
  · simp [h]

lemma upsertOne_nodup_id (s : Store) (r : MemoryRecord)
    (h : (s.map (fun x => x.id)).Nodup) :
    ((upsertOne s r).map (fun x => x.id)).Nodup := by
  rw [upsertOne_map_id]
  by_cases ha : s.any (fun x => decide (x.id = r.id))
  · simpa [ha] using h
  · have hr : r.id ∉ s.map (fun x => x.id) := by
      intro hmem
      rcases List.mem_map.mp hmem with ⟨x, hx, hid⟩
      have : s.any (fun x => decide (x.id = r.id)) = true :=
        List.any_eq_true.mpr ⟨x, hx, by simp [hid]⟩
      exact ha this
    simp only [ha, if_false, Bool.false_eq_true]
    simp [List.nodup_append, h, hr]

lemma upsertMany_nodup_id (recs : List MemoryRecord) :
    ∀ s : Store, (s.map (fun x => x.id)).Nodup →
      ((upsertMany s recs).map (fun x => x.id)).Nodup := by
  induction recs with
  | nil => intro s h; simpa [upsertMany] using h
  | cons r rest ih =>
      intro s h
      have h1 := upsertOne_nodup_id s r h
      simpa [upsertMany] using ih (upsertOne s r) h1

lemma indexVectors_map_id (embed : JStr → List Rat) (now : JStr)
    (req : IndexRequest) :
    (indexVectors embed now req).map (fun r => r.id) = indexIds req := by
  unfold indexVectors indexIds
  rw [List.map_map]
  exact enum_map_comp_snd (chunkText req.text 500)
    (generateId req.agent (orElseStr req.source_file (str "manual")))

lemma batchesOfAux_le (fuel : Nat) :
    ∀ l : List MemoryRecord, ∀ b ∈ batchesOfAux fuel l, b.length ≤ 100 := by
  induction fuel with
  | zero => intro l b hb; simp [batchesOfAux] at hb
  | succ n ih =>
      intro l b hb
      cases l with
      | nil => simp [batchesOfAux] at hb
      | cons x rest =>
          simp only [batchesOfAux, List.mem_cons] at hb
          rcases hb with hb | hb
          · subst hb
            rw [List.length_take]
            exact min_le_left _ _
          · exact ih _ b hb

lemma chunkStep_pos (maxChunkSize : Nat) (st : List JStr × JStr) (para : JStr)
    (h : maxChunkSize < st.2.length + para.length ∧ st.2 ≠ []) :
    chunkStep maxChunkSize st para = (st.1 ++ [jsTrim st.2], para) := by
  simp only [chunkStep, if_pos h]

lemma chunkStep_neg (maxChunkSize : Nat) (st : List JStr × JStr) (para : JStr)
    (h : ¬ (maxChunkSize < st.2.length + para.length ∧ st.2 ≠ [])) :
    chunkStep maxChunkSize st para
      = (st.1, if st.2 ≠ [] then st.2 ++ '\n' :: '\n' :: para else para) := by
  simp only [chunkStep, if_neg h]

/-- Invariant of the paragraph-packing fold: relative to a pool `P` of
paragraphs, every closed chunk either fits in `maxChunkSize + 2` characters
or is the trim of a single pool paragraph, and the open chunk is empty, a
single pool paragraph, or fits in `maxChunkSize + 2` characters. -/
lemma chunkFold_inv (maxChunkSize : Nat) (P : List JStr) :
    ∀ (paras : List JStr) (st : List JStr × JStr),
      (∀ p ∈ paras, p ∈ P) →
      (∀ c ∈ st.1, c.length ≤ maxChunkSize + 2 ∨ ∃ p ∈ P, c = jsTrim p) →
      (st.2 = [] ∨ st.2 ∈ P ∨ st.2.length ≤ maxChunkSize + 2) →
      (∀ c ∈ (paras.foldl (chunkStep maxChunkSize) st).1,
          c.length ≤ maxChunkSize + 2 ∨ ∃ p ∈ P, c = jsTrim p)
      ∧ ((paras.foldl (chunkStep maxChunkSize) st).2 = []
         ∨ (paras.foldl (chunkStep maxChunkSize) st).2 ∈ P
         ∨ (paras.foldl (chunkStep maxChunkSize) st).2.length ≤ maxChunkSize + 2) := by
  intro paras
  induction paras with
  | nil =>
      intro st h1 h2 h3
      exact ⟨by simpa using h2, by simpa using h3⟩
  | cons para rest ih =>
      intro st hp h2 h3
      have hpara : para ∈ P := hp para (by simp)
      have hrest : ∀ p ∈ rest, p ∈ P := fun p hq => hp p (List.mem_cons_of_mem _ hq)
      rw [List.foldl_cons]
      by_cases hc : maxChunkSize < st.2.length + para.length ∧ st.2 ≠ []
      · rw [chunkStep_pos _ _ _ hc]
        refine ih _ hrest ?_ (Or.inr (Or.inl hpara))
        intro c hcmem
        rcases List.mem_append.mp hcmem with hcm | hcm
        · exact h2 c hcm
        · have hct : c = jsTrim st.2 := by simpa using hcm
          subst hct
          rcases h3 with h3 | h3 | h3
          · exact absurd h3 hc.2
          · exact Or.inr ⟨st.2, h3, rfl⟩
          · exact Or.inl (le_trans (jsTrim_length_le _) h3)
      · rw [chunkStep_neg _ _ _ hc]
        by_cases hne : st.2 ≠ []
        · have hlen : st.2.length + para.length ≤ maxChunkSize := by
            by_contra hgt
            exact hc ⟨Nat.lt_of_not_le (fun hle => hgt hle), hne⟩
          refine ih _ hrest (by simpa using h2) ?_
          rw [if_pos hne]
          refine Or.inr (Or.inr ?_)
          simp only [List.length_append, List.length_cons]
          omega
        · have hnil : st.2 = [] := not_not.mp (fun hx => hne hx)
          refine ih _ hrest (by simpa using h2) ?_
          rw [if_neg hne]
          exact Or.inr (Or.inl hpara)

lemma jsTrim_nil : jsTrim [] = [] := rfl

/-! ## Claims -/

/-- Claim C7 (counterexample): two paragraphs of 499 and 1 characters, both
within the 500-character limit, are packed into a single chunk of 502
characters — the overflow check does not count the two-character
paragraph separator, so a chunk assembled from several within-limit
paragraphs can exceed the limit. -/
theorem chunker_greedy_counterexample :
    splitParas (List.replicate 499 'a' ++ '\n' :: '\n' :: ['b'])
      = [List.replicate 499 'a', ['b']]
  ∧ ((splitParas (List.replicate 499 'a' ++ '\n' :: '\n' :: ['b'])).all
      fun p => decide (p.length ≤ 500)) = true
  ∧ (chunkText (List.replicate 499 'a' ++ '\n' :: '\n' :: ['b']) 500).map
      List.length = [502] := by decide

/-- Claim C7 (amended): the Chunker packs whole paragraphs greedily, but the
overflow check compares `currentChunk.length + para.length` against the
limit without counting the two-character `\n\n` joiner, so a chunk
assembled from several within-limit paragraphs can exceed the limit by up
to two characters: every chunk either has length at most `maxChunkSize + 2`
or is the trim of a single input paragraph. -/
theorem chunker_greedy_amended (text : JStr) (maxChunkSize : Nat) :
    ∀ c ∈ chunkText text maxChunkSize,
      c.length ≤ maxChunkSize + 2 ∨ ∃ p ∈ splitParas text, c = jsTrim p := by
  intro c hc
  unfold chunkText at hc
  have inv := chunkFold_inv maxChunkSize (splitParas text) (splitParas text)
    ([], []) (fun p hp => hp) (by simp) (Or.inl rfl)
  rcases inv with ⟨hchunks, hcur⟩
  by_cases hlast :
      jsTrim ((splitParas text).foldl (chunkStep maxChunkSize) ([], [])).2 ≠ []
  · rw [if_pos hlast] at hc
    rcases List.mem_append.mp hc with hcm | hcm
    · exact hchunks c hcm
    · have hct : c = jsTrim ((splitParas text).foldl (chunkStep maxChunkSize) ([], [])).2 := by
        simpa using hcm
      subst hct
      rcases hcur with hcur | hcur | hcur
      · rw [hcur] at hlast
        exact absurd jsTrim_nil hlast
      · exact Or.inr ⟨_, hcur, rfl⟩
      · exact Or.inl (le_trans (jsTrim_length_le _) hcur)
  · rw [if_neg hlast] at hc
    exact hchunks c hc

/-- Claim C7 (witness): the amended bound evaluated at a concrete input. -/
theorem chunker_greedy_witness :
    (str "hi").length ≤ 500 + 2 ∨ ∃ p ∈ splitParas (str "hi"), str "hi" = jsTrim p :=
  chunker_greedy_amended (str "hi") 500 (str "hi") (by decide)

/-- Claim C10: supplying `topK = 0` or `minScore = 0` to `/query` is
indistinguishable from omitting them — the `||` coalescing substitutes the
defaults 5 and 0.7 for any falsy value, so no caller can obtain an
effective minimum score of exactly 0. -/
theorem query_falsy_defaults (storeMatches : List VectorMatch) (q : JStr) :
    queryTopK { query := q, topK := some 0 } = 5
  ∧ queryMinScore { query := q, minScore := some 0 } = 7 / 10
  ∧ (∀ req : QueryRequest, queryMinScore req ≠ 0)
  ∧ queryFiltered storeMatches { query := q, minScore := some 0 }
      = storeMatches.filter (fun m => decide ((7 : Rat) / 10 ≤ m.score)) := by
  refine ⟨rfl, rfl, ?_, rfl⟩
  intro req
  unfold queryMinScore orElseRat
  cases hms : req.minScore with
  | none => norm_num
  | some x =>
      simp only [Option.some.injEq]
      split_ifs with hx
      · norm_num
      · exact hx

/-- Claim C3 (counterexample): `/query` does not clamp — a negative `topK`
is passed to the Vector Store call unchanged (not raised to 1), and a
`minScore` above 1 is used for the post-filter unchanged. -/
theorem query_clamp_counterexample :
    queryTopK { query := str "q", topK := some (-3) } = -3
  ∧ ¬ (1 ≤ queryTopK { query := str "q", topK := some (-3) })
  ∧ queryMinScore { query := str "q", minScore := some (3 / 2) } = 3 / 2
  ∧ ¬ (queryMinScore { query := str "q", minScore := some (3 / 2) } ≤ 1) := by
  refine ⟨rfl, by decide, ?_, ?_⟩
  · norm_num [queryMinScore, orElseRat]
  · norm_num [queryMinScore, orElseRat]

/-- Claim C3 (amended): `/query` performs no clamping: absent or zero
`topK`/`minScore` are replaced by the defaults 5 and 0.7 through falsy
coalescing, every other value — in range or not — is passed through
unchanged to the store call and the post-filter, and the request is never
rejected for being out of range (only a missing query is rejected). -/
theorem query_no_clamp_amended (req : QueryRequest)
    (storeMatches : List VectorMatch) :
    (req.topK = none ∨ req.topK = some 0 → queryTopK req = 5)
  ∧ (∀ t : Int, req.topK = some t → t ≠ 0 → queryTopK req = t)
  ∧ (req.minScore = none ∨ req.minScore = some 0 → queryMinScore req = 7 / 10)
  ∧ (∀ m : Rat, req.minScore = some m → m ≠ 0 → queryMinScore req = m)
  ∧ (req.query ≠ [] →
      queryHandler storeMatches req
        = .ok { query := req.query
                count := (queryFiltered storeMatches req).length
                «matches» := queryFiltered storeMatches req }) := by
  refine ⟨?_, ?_, ?_, ?_, ?_⟩
  · rintro (h | h) <;> simp [queryTopK, orElseInt, h]
  · intro t ht hne
    simp [queryTopK, orElseInt, ht, hne]
  · rintro (h | h) <;> simp [queryMinScore, orElseRat, h]
  · intro m hm hne
    simp [queryMinScore, orElseRat, hm, hne]
  · intro hq
    simp [queryHandler, hq]

/-- Claim C8: the `/query` response holds exactly the store matches whose
score reaches the minimum, in the store's order (`filter` yields a
sublist, so the descending order the store returned is preserved and
nothing is re-sorted); a top raw score of 3/5 under minimum 7/10 gives an
empty, non-error result. -/
theorem query_filter_order (storeMatches : List VectorMatch)
    (req : QueryRequest) :
    List.Sublist (queryFiltered storeMatches req) storeMatches
  ∧ (∀ m : VectorMatch,
      m ∈ queryFiltered storeMatches req ↔
        m ∈ storeMatches ∧ queryMinScore req ≤ m.score)
  ∧ (req.query ≠ [] →
      queryHandler storeMatches req
        = .ok { query := req.query
                count := (queryFiltered storeMatches req).length
                «matches» := queryFiltered storeMatches req })
  ∧ queryHandler [⟨str "m1", 3 / 5, none⟩]
      { query := str "q", minScore := some (7 / 10) }
      = .ok { query := str "q", count := 0, «matches» := [] } := by
  refine ⟨List.filter_sublist _, ?_, ?_, ?_⟩
  · intro m
    simp [queryFiltered, List.mem_filter]
  · intro hq
    simp [queryHandler, hq]
  · have hlt : ¬ ((7 : Rat) / 10 ≤ 3 / 5) := by norm_num
    have hq : str "q" ≠ [] := by decide
    simp [queryHandler, queryFiltered, queryMinScore, orElseRat, hlt,
      List.filter_cons, hq]

/-- Claim C1 (counterexample): the worker's `/capture` fallback heuristics
evaluate decision-language first, so a text containing both decision and
correction language is classified `decision`, while the claimed precedence
(correction first) over the very same trigger sets yields `correction`. -/
theorem classifier_precedence_counterexample :
    captureHeuristicType (str "the decision: actually use tabs") = str "decision"
  ∧ specOrderCategory workerCorrectionStrs workerPreferenceStrs
      workerDecisionStrs workerLearningStrs
      (str "the decision: actually use tabs") = str "correction"
  ∧ str "decision" ≠ str "correction" := by decide

/-- Claim C1 (amended): the plugin classifier `detectCategory` follows the
claimed strict precedence (correction > preference > decision > learning >
context, first match wins) exactly, and classifies any input containing
correction language as `correction`; the worker's `/capture` fallback
heuristics instead check decision-language first, so for them an input
containing correction language is never classified `preference`, and is
classified `correction` whenever it contains no decision language. -/
theorem classifier_precedence_amended (text : JStr) :
    detectCategory text
      = specOrderCategory pluginCorrectionStrs pluginPreferenceStrs
          pluginDecisionStrs pluginLearningStrs text
  ∧ (containsAny (jsToLower text) pluginCorrectionStrs = true →
      detectCategory text = str "correction")
  ∧ (containsAny (jsToLower text) workerCorrectionStrs = true →
      captureHeuristicType text ≠ str "preference")
  ∧ (containsAny (jsToLower text) workerCorrectionStrs = true →
      containsAny (jsToLower text) workerDecisionStrs = false →
      captureHeuristicType text = str "correction") := by
  refine ⟨rfl, ?_, ?_, ?_⟩
  · intro h
    simp [detectCategory, h]
  · intro h
    by_cases hd : containsAny (jsToLower text) workerDecisionStrs = true
    · simp only [captureHeuristicType, hd, if_true]
      decide
    · have hd' : containsAny (jsToLower text) workerDecisionStrs = false := by
        simpa using hd
      simp only [captureHeuristicType, hd', h, Bool.false_eq_true, if_false,
        if_true]
      decide
  · intro h hd
    simp only [captureHeuristicType, hd, h, Bool.false_eq_true, if_false,
      if_true]

/-- Claim C2 (code evaluation at the failing input): capturing the same
sentence twice, the `/capture` handler performs no near-duplicate
similarity query — the second call reports `captured: true` again (not
suppressed), and the store holds a single record only because the
content-deterministic id makes the second upsert overwrite the first. -/
theorem capture_no_dedup_eval :
    captureHandler (fun _ => []) []
      []
      { agent := str "flo", content := str "i prefer dark mode" }
      = .ok ({ captured := true, type := some (str "preference")
               id := some (captureRecord (fun _ => []) []
                 { agent := str "flo", content := str "i prefer dark mode" }).id },
             [captureRecord (fun _ => []) []
               { agent := str "flo", content := str "i prefer dark mode" }])
  ∧ captureHandler (fun _ => []) []
      [captureRecord (fun _ => []) []
        { agent := str "flo", content := str "i prefer dark mode" }]
      { agent := str "flo", content := str "i prefer dark mode" }
      = .ok ({ captured := true, type := some (str "preference")
               id := some (captureRecord (fun _ => []) []
                 { agent := str "flo", content := str "i prefer dark mode" }).id },
             [captureRecord (fun _ => []) []
               { agent := str "flo", content := str "i prefer dark mode" }]) := by
  decide

/-- Claim C4 (counterexample): `/capture` stores a caller-supplied
classification verbatim — the string `banana`, outside the closed category
enumeration, is persisted as the record's type. -/
theorem category_closed_set_counterexample :
    (captureRecord (fun _ => []) []
      { agent := str "dev", content := str "remember the banana"
        classification := some (str "banana") }).type = str "banana"
  ∧ str "banana" ∉ closedCategorySet
  ∧ captureHandler (fun _ => []) [] []
      { agent := str "dev", content := str "remember the banana"
        classification := some (str "banana") }
      = .ok ({ captured := true, type := some (str "banana")
               id := some (captureRecord (fun _ => []) []
                 { agent := str "dev", content := str "remember the banana"
                   classification := some (str "banana") }).id },
             [captureRecord (fun _ => []) []
               { agent := str "dev", content := str "remember the banana"
                 classification := some (str "banana") }]) := by decide

/-- Claim C4 (amended): membership in the closed category enumeration is
guaranteed only on the paths that do not take a caller-supplied string:
the `/capture` heuristics always yield a member of the closed set,
`/index-file` always stores `context`, and `/index` without a type stores
`context`; but a non-empty caller-supplied classification is stored
verbatim by `/capture` without validation, so free text can be
persisted. -/
theorem category_closed_set_amended (embed : JStr → List Rat) (now : JStr)
    (content : JStr) (req : CaptureRequest) (agent file text : JStr)
    (ireq : IndexRequest) :
    captureHeuristicType content ∈ closedCategorySet
  ∧ (req.classification = none →
      (captureRecord embed now req).type = captureHeuristicType req.content)
  ∧ (∀ c : JStr, req.classification = some c → c ≠ [] →
      (captureRecord embed now req).type = c)
  ∧ (∀ r ∈ indexFileVectors embed now agent file text, r.type = str "context")
  ∧ (ireq.type = none →
      ∀ r ∈ indexVectors embed now ireq, r.type = str "context") := by
  refine ⟨?_, ?_, ?_, ?_, ?_⟩
  · simp only [captureHeuristicType]
    split_ifs <;> decide
  · intro h
    simp [captureRecord, captureMemoryType, h]
  · intro c hc hne
    simp [captureRecord, captureMemoryType, hc, hne]
  · intro r hr
    rcases List.mem_map.mp hr with ⟨p, hp, rfl⟩
    rfl
  · intro h r hr
    rcases List.mem_map.mp hr with ⟨p, hp, rfl⟩
    simp [orElseStr, h]

/-- Claim C5: the generated ids are a pure function of
(owner, source, text) — indexing the same request twice yields the same
id list both times, whatever the embedding results and timestamps — and
upsert overwrites under the same id, so a store with pairwise distinct
ids still has pairwise distinct ids (one record per id, not two) after
both indexing passes. -/
theorem index_idempotent (embed embed2 : JStr → List Rat) (now now2 : JStr)
    (store : Store) (req : IndexRequest)
    (h : (store.map (fun r => r.id)).Nodup) :
    (indexVectors embed now req).map (fun r => r.id) = indexIds req
  ∧ (indexVectors embed2 now2 req).map (fun r => r.id) = indexIds req
  ∧ ((upsertMany (upsertMany store (indexVectors embed now req))
        (indexVectors embed2 now2 req)).map (fun r => r.id)).Nodup := by
  refine ⟨indexVectors_map_id _ _ _, indexVectors_map_id _ _ _, ?_⟩
  exact upsertMany_nodup_id _ _ (upsertMany_nodup_id _ _ h)

/-- Claim C5 (witness): the idempotence theorem evaluated from the empty
store at a concrete request. -/
theorem index_idempotent_witness :
    (indexVectors (fun _ => []) []
      { agent := str "a", text := str "hello" }).map (fun r => r.id)
      = indexIds { agent := str "a", text := str "hello" }
  ∧ (indexVectors (fun _ => []) []
      { agent := str "a", text := str "hello" }).map (fun r => r.id)
      = indexIds { agent := str "a", text := str "hello" }
  ∧ ((upsertMany (upsertMany ([] : Store)
        (indexVectors (fun _ => []) [] { agent := str "a", text := str "hello" }))
        (indexVectors (fun _ => []) [] { agent := str "a", text := str "hello" })).map
        (fun r => r.id)).Nodup :=
  index_idempotent (fun _ => []) (fun _ => []) [] [] []
    { agent := str "a", text := str "hello" } (by decide)

/-- Claim C6 (counterexample): `/index` does not cap the stored
`raw_text` — a 1200-character single-paragraph text is stored in full,
past both the 1000-character cap `/capture` applies and the 500-character
chunk target. -/
theorem raw_text_cap_counterexample :
    (indexVectors (fun _ => []) []
      { agent := str "a", text := List.replicate 1200 'x' }).map
        (fun r => r.raw_text.length) = [1200]
  ∧ (captureRecord (fun _ => []) []
      { agent := str "a", content := List.replicate 1200 'x'
        classification := some (str "learning") }).raw_text.length = 1000 := by
  decide

/-- Claim C6 (amended): only `/capture` bounds the stored `raw_text`
(`slice(0, 1000)`, truncated and never rejected); `/index` and
`/index-file` store each full chunk as `raw_text` with no cap, so their
stored text is bounded only when the chunks are. -/
theorem raw_text_cap_amended (embed : JStr → List Rat) (now : JStr)
    (req : CaptureRequest) (ireq : IndexRequest) (agent file text : JStr) :
    (captureRecord embed now req).raw_text.length ≤ 1000
  ∧ (∀ r ∈ indexVectors embed now ireq, r.raw_text ∈ chunkText ireq.text 500)
  ∧ (∀ r ∈ indexFileVectors embed now agent file text,
      r.raw_text ∈ chunkText text 500) := by
  refine ⟨?_, ?_, ?_⟩
  · simp only [captureRecord]
    rw [List.length_take]
    exact min_le_left _ _
  · intro r hr
    rcases List.mem_map.mp hr with ⟨p, hp, rfl⟩
    simpa using snd_mem_of_mem_enum hp
  · intro r hr
    rcases List.mem_map.mp hr with ⟨p, hp, rfl⟩
    simpa using snd_mem_of_mem_enum hp

/-- Claim C9 (counterexample): an `/index` request whose text chunks into
101 pieces makes a single upsert call carrying all 101 vectors — the
`/index` path is not batched at 100. -/
theorem upsert_batching_counterexample :
    (indexUpsertCalls (fun _ => []) []
      { agent := str "a",
        text := List.intercalate (str "\n\n")
          (List.replicate 101 (List.replicate 251 'a')) }).map List.length
      = [101]
  ∧ ¬ (101 ≤ 100) := by decide

/-- Claim C9 (amended): `/capture` makes one upsert call with one record
and `/index-file` batches its upserts in groups of at most 100, but
`/index` always makes a single upsert call carrying every chunk record,
with no batch bound. -/
theorem upsert_batching_amended (embed : JStr → List Rat) (now : JStr)
    (agent file text : JStr) (req : CaptureRequest) (ireq : IndexRequest) :
    (∀ b ∈ indexFileUpsertCalls embed now agent file text, b.length ≤ 100)
  ∧ (∀ b ∈ captureUpsertCalls embed now req, b.length = 1)
  ∧ (ireq.agent ≠ [] → ireq.text ≠ [] →
      indexUpsertCalls embed now ireq = [indexVectors embed now ireq]) := by
  refine ⟨?_, ?_, ?_⟩
  · intro b hb
    exact batchesOfAux_le _ _ b hb
  · intro b hb
    unfold captureUpsertCalls at hb
    split_ifs at hb
    · simp at hb
    · simp at hb
    · have : b = [captureRecord embed now req] := by simpa using hb
      subst this
      rfl
  · intro h1 h2
    simp [indexUpsertCalls, h1, h2]
